import Mathlib

/-!
Shallow embedding of the road-network test-fixture generator
(`Genarator/Phase1/python.py`): the graph generator `generate_graph` and the
event generator `generate_queries`, together with proofs of the documented
invariants.

Modelling conventions:
* Python floats are modelled as exact rationals (`ℚ`); `round(x, 2)` and
  `round(x, 6)` become `round2` / `round6`.
* The process-wide `random` module is modelled as an abstract source
  `RandGen σ` threaded explicitly through every generator.  The predicate
  `LawfulGen` records exactly the guarantees Python's `random` primitives
  give (value ranges, sample sizes, distinctness); theorems about generated
  documents quantify over all lawful sources.
* The unbounded `while len(edges) < num_edges` rejection-sampling loop is
  modelled with explicit fuel; `none` means the loop was still running when
  the fuel ran out (for every fuel bound), i.e. the source loops forever.
* Python exceptions raised by empty-sequence access (`random.choice([])`
  raises `IndexError`, `random.sample` with too large a draw raises
  `ValueError`) are modelled with `Except PyErr`.
-/

namespace RoadGen

/-- Round-half-up to the nearest integer, written with `Rat.floor` and
`mkRat` so that it evaluates by reduction; `pyRound_eq` identifies it with
Mathlib's `round`. -/
def pyRound (q : ℚ) : ℤ := Rat.floor (q + mkRat 1 2)

/-- `round(x, 2)` on exact rationals. -/
def round2 (q : ℚ) : ℚ := mkRat (pyRound (q * 100)) 100

/-- `round(x, 6)` on exact rationals. -/
def round6 (q : ℚ) : ℚ := mkRat (pyRound (q * 1000000)) 1000000

/-- Source constant `ROAD_TYPES`. -/
def ROAD_TYPES : List String := ["primary", "secondary", "tertiary", "local", "expressway"]

/-- Source constant `POIS`. -/
def POIS : List String := ["restaurant", "hospital", "pharmacy", "hotel", "atm", "petrol station"]

/-- A node record of the graph document. -/
structure Node where
  id : Nat
  lat : ℚ
  lon : ℚ
  pois : List String
deriving DecidableEq

/-- An edge record of the graph document. -/
structure Edge where
  id : Nat
  u : Nat
  v : Nat
  length : ℚ
  average_time : ℚ
  speed_profile : List ℚ
  oneway : Bool
  road_type : String
deriving DecidableEq

/-- The `meta` object of the graph document. -/
structure GraphMeta where
  id : String
  nodes : Nat
  description : String
deriving DecidableEq

/-- The graph document returned by `generate_graph`. -/
structure GraphDoc where
  meta : GraphMeta
  nodes : List Node
  edges : List Edge
deriving DecidableEq

/-- The optional `constraints` sub-object of a `shortest_path` event.
In the source it is a dict that may carry the keys `forbidden_nodes` and
`forbidden_road_types`; a missing key is `none`. -/
structure Constraints where
  forbidden_nodes : Option (List Nat)
  forbidden_road_types : Option (List String)
deriving DecidableEq

/-- The `query_point` sub-object of a `knn` event. -/
structure QueryPoint where
  lat : ℚ
  lon : ℚ
deriving DecidableEq

/-- The optional `patch` sub-object of a `modify_edge` event: a dict holding a
subset of the keys `length`, `speed_profile`, `road_type`. -/
structure Patch where
  length : Option ℚ
  speed_profile : Option (List ℚ)
  road_type : Option String
deriving DecidableEq

/-- The kind-specific payload of an event (the dict fields other than `id`). -/
inductive EventData where
  | shortest_path (source target : Nat) (mode : String) (constraints : Option Constraints)
  | knn (k : Nat) (poi : String) (query_point : QueryPoint) (metric : String)
  | modify_edge (edge_id : Nat) (patch : Option Patch)
  | remove_edge (edge_id : Nat)
deriving DecidableEq

/-- One event of the query-set document. -/
structure Event where
  id : Nat
  data : EventData
deriving DecidableEq

/-- Python exceptions that the source can raise. -/
inductive PyErr where
  | indexError
  | valueError
deriving DecidableEq

/-- An abstract source of randomness: one field per `random`-module primitive
the source uses.  `choiceIdx n` draws the index used by `random.choice` on a
sequence of length `n`; `sampleRange n k` models `random.sample(range(n), k)`;
`choices4` draws the index of `random.choices` over the four weighted event
kinds (which always returns an element of its population, hence `Fin 4`). -/
structure RandGen (σ : Type) where
  random : σ → ℚ × σ
  uniform : ℚ → ℚ → σ → ℚ × σ
  randint : Nat → Nat → σ → Nat × σ
  choiceIdx : Nat → σ → Nat × σ
  sampleRange : Nat → Nat → σ → List Nat × σ
  choices4 : σ → Fin 4 × σ

/-- The guarantees Python's `random` primitives give: `random()` lies in
`[0,1)`, `uniform(a,b)` lies in `[a,b]`, `randint(a,b)` lies in `[a,b]`,
`choice` picks a valid index, and `sample(range(n), k)` returns `min k n`
pairwise-distinct values below `n` (Python raises before returning a list
shorter than `k`; returning `min k n` values makes that shape mismatch
observable to the caller). -/
structure LawfulGen {σ : Type} (g : RandGen σ) : Prop where
  random_nonneg : ∀ s, 0 ≤ (g.random s).1
  random_lt_one : ∀ s, (g.random s).1 < 1
  uniform_le : ∀ a b s, a ≤ b → a ≤ (g.uniform a b s).1 ∧ (g.uniform a b s).1 ≤ b
  randint_le : ∀ a b s, a ≤ b → a ≤ (g.randint a b s).1 ∧ (g.randint a b s).1 ≤ b
  choiceIdx_lt : ∀ n s, 0 < n → (g.choiceIdx n s).1 < n
  sampleRange_len : ∀ n k s, ((g.sampleRange n k s).1).length = min k n
  sampleRange_nodup : ∀ n k s, ((g.sampleRange n k s).1).Nodup
  sampleRange_mem : ∀ n k s, ∀ x ∈ (g.sampleRange n k s).1, x < n

/-- `random.choice(l)`: raises `IndexError` on an empty sequence. -/
def rchoice {σ : Type} {α : Type} (g : RandGen σ) (l : List α) (s : σ) :
    Except PyErr (α × σ) :=
  let (i, s1) := g.choiceIdx l.length s
  match l.get? i with
  | some x => .ok (x, s1)
  | none => .error .indexError

/-- `random.choice(l)` at call sites where `l` is a non-empty literal
(`[True, False]`, `ROAD_TYPES`): total, with an unreachable default. -/
def rchoiceD {σ : Type} {α : Type} [Inhabited α] (g : RandGen σ) (l : List α) (s : σ) :
    α × σ :=
  let (i, s1) := g.choiceIdx l.length s
  (l.getD i default, s1)

/-- `random.sample(l, k)` on a list, realised by sampling positions. -/
def sampleList {σ : Type} {α : Type} (g : RandGen σ) (l : List α) (k : Nat) (s : σ) :
    List α × σ :=
  let (idxs, s1) := g.sampleRange l.length k s
  (idxs.filterMap (fun i => l.get? i), s1)

/-- Body of the node loop of `generate_graph` for one id `i`:
`lat = 19.0 + random.random() * 0.2`, `lon = 72.8 + random.random() * 0.2`,
`pois = random.sample(POIS, random.randint(0, 2))`. -/
def mkNode {σ : Type} (g : RandGen σ) (i : Nat) (s : σ) : Node × σ :=
  let (r1, s1) := g.random s
  let lat : ℚ := 19 + r1 * mkRat 1 5
  let (r2, s2) := g.random s1
  let lon : ℚ := mkRat 364 5 + r2 * mkRat 1 5
  let (np, s3) := g.randint 0 2 s2
  let (ps, s4) := sampleList g POIS np s3
  (⟨i, lat, lon, ps⟩, s4)

/-- `for i in range(num_nodes): ... nodes.append(...)`, over an explicit id
list (instantiated with `List.range num_nodes`). -/
def mkNodes {σ : Type} (g : RandGen σ) : List Nat → σ → List Node × σ
  | [], s => ([], s)
  | i :: is, s =>
    let (nd, s1) := mkNode g i s
    let (rest, s2) := mkNodes g is s1
    (nd :: rest, s2)

/-- `[round(random.uniform(20, 60), 2) for _ in range(n)]` (used with `n = 96`). -/
def mkSpeedProfile {σ : Type} (g : RandGen σ) : Nat → σ → List ℚ × σ
  | 0, s => ([], s)
  | n + 1, s =>
    let (r, s1) := g.uniform 20 60 s
    let (rest, s2) := mkSpeedProfile g n s1
    (round2 r :: rest, s2)

/-- Attribute synthesis for an accepted edge `(u, v)` with id `eid`:
`length`, `average_time`, `speed_profile`, `oneway`, `road_type`. -/
def mkEdgeAttrs {σ : Type} (g : RandGen σ) (eid u v : Nat) (s : σ) : Edge × σ :=
  let (lr, s1) := g.uniform 50 500 s
  let len := round2 lr
  let (dv, s2) := g.uniform 5 25 s1
  let avg := round2 (len / dv)
  let (sp, s3) := mkSpeedProfile g 96 s2
  let (ow, s4) := rchoiceD g [true, false] s3
  let (rt, s5) := rchoiceD g ROAD_TYPES s4
  (⟨eid, u, v, len, avg, sp, ow, rt⟩, s5)

/-- The rejection-sampling loop `while len(edges) < num_edges`, with explicit
fuel.  `none` = the fuel ran out with the loop still spinning; the `.error`
arm models the `ValueError` that `random.sample(range(num_nodes), 2)` raises
when `num_nodes < 2` (a lawful source then yields fewer than two values). -/
def edgeLoop {σ : Type} (g : RandGen σ) (num_nodes num_edges : Nat) :
    Nat → List Edge → List (Nat × Nat) → σ → Option (Except PyErr (List Edge × σ))
  | fuel, edges, edge_set, s =>
    if edges.length < num_edges then
      match fuel with
      | 0 => none
      | fuel + 1 =>
        let (l, s1) := g.sampleRange num_nodes 2 s
        match l with
        | [u, v] =>
          if u = v ∨ (u, v) ∈ edge_set ∨ (v, u) ∈ edge_set then
            edgeLoop g num_nodes num_edges fuel edges edge_set s1
          else
            let (e, s2) := mkEdgeAttrs g (1000 + edges.length) u v s1
            edgeLoop g num_nodes num_edges fuel (edges ++ [e]) ((u, v) :: edge_set) s2
        | _ => some (.error .valueError)
    else
      some (.ok (edges, s))

/-- `generate_graph(num_nodes, num_edges)`. -/
def generate_graph {σ : Type} (g : RandGen σ) (fuel num_nodes num_edges : Nat) (s : σ) :
    Option (Except PyErr (GraphDoc × σ)) :=
  let (nodes, s1) := mkNodes g (List.range num_nodes) s
  match edgeLoop g num_nodes num_edges fuel [] [] s1 with
  | none => none
  | some (.error e) => some (.error e)
  | some (.ok (edges, s2)) =>
    some (.ok (⟨⟨"autogen_graph", num_nodes, "Auto-generated graph for full system test"⟩,
      nodes, edges⟩, s2))

/-- The `forbidden_nodes` sub-attempt of the constraints block:
`if random.random() < 0.5 and len(node_ids) > 5: cons["forbidden_nodes"] = ...`. -/
def drawFn {σ : Type} (g : RandGen σ) (node_ids : List Nat) (s : σ) :
    Option (List Nat) × σ :=
  let (r, s1) := g.random s
  if r < mkRat 1 2 ∧ 5 < node_ids.length then
    let (k, s2) := g.randint 1 (min 5 (node_ids.length / 5)) s1
    let (xs, s3) := sampleList g node_ids k s2
    (some xs, s3)
  else (none, s1)

/-- The `forbidden_road_types` sub-attempt:
`if random.random() < 0.5: cons["forbidden_road_types"] = ...`. -/
def drawFrt {σ : Type} (g : RandGen σ) (s : σ) : Option (List String) × σ :=
  let (r, s1) := g.random s
  if r < mkRat 1 2 then
    let (k, s2) := g.randint 1 2 s1
    let (xs, s3) := sampleList g ROAD_TYPES k s2
    (some xs, s3)
  else (none, s1)

/-- The whole optional-constraints block of the `shortest_path` branch:
outer `random.random() < 0.6` gate, the two sub-attempts, and
`if cons: event["constraints"] = cons` (an empty dict is falsy). -/
def mkConstraints {σ : Type} (g : RandGen σ) (node_ids : List Nat) (s : σ) :
    Option Constraints × σ :=
  let (r, s1) := g.random s
  if r < mkRat 3 5 then
    let (fn, s2) := drawFn g node_ids s1
    let (frt, s3) := drawFrt g s2
    if fn.isSome ∨ frt.isSome then (some ⟨fn, frt⟩, s3) else (none, s3)
  else (none, s1)

/-- The `shortest_path` branch of the event loop. -/
def mkShortestPath {σ : Type} (g : RandGen σ) (node_ids : List Nat) (s : σ) :
    Except PyErr (EventData × σ) :=
  match rchoice g node_ids s with
  | .error e => .error e
  | .ok (src, s1) =>
    match rchoice g node_ids s1 with
    | .error e => .error e
    | .ok (tgt, s2) =>
      match rchoice g ["distance", "time"] s2 with
      | .error e => .error e
      | .ok (mode, s3) =>
        let (cons, s4) := mkConstraints g node_ids s3
        .ok (.shortest_path src tgt mode cons, s4)

/-- The `knn` branch of the event loop. -/
def mkKnn {σ : Type} (g : RandGen σ) (all_nodes : List Node) (s : σ) :
    Except PyErr (EventData × σ) :=
  let (k, s1) := g.randint 3 10 s
  let valid_pois := all_nodes.flatMap Node.pois
  match (if valid_pois.isEmpty then rchoice g POIS s1 else rchoice g valid_pois s1) with
  | .error e => .error e
  | .ok (poi, s2) =>
    match rchoice g all_nodes s2 with
    | .error e => .error e
    | .ok (ref, s3) =>
      let (d1, s4) := g.uniform (mkRat (-1) 200) (mkRat 1 200) s3
      let qlat := round6 (ref.lat + d1)
      let (d2, s5) := g.uniform (mkRat (-1) 200) (mkRat 1 200) s4
      let qlon := round6 (ref.lon + d2)
      .ok (.knn k poi ⟨qlat, qlon⟩ "shortest_path", s5)

/-- The patch construction of the `modify_edge` branch.  Note that both arms
of the inner `random.random() < 0.3` test generate a full 96-entry profile
(the "partial update" alternative exists only as a source comment). -/
def mkPatch {σ : Type} (g : RandGen σ) (s : σ) : Except PyErr (Patch × σ) :=
  match rchoice g ["length", "speed_profile", "road_type"] s with
  | .error e => .error e
  | .ok (pt, s1) =>
    if pt = "length" then
      let (r, s2) := g.uniform 50 500 s1
      .ok (⟨some (round2 r), none, none⟩, s2)
    else if pt = "speed_profile" then
      let (r, s2) := g.random s1
      if r < mkRat 3 10 then
        let (sp, s3) := mkSpeedProfile g 96 s2
        .ok (⟨none, some sp, none⟩, s3)
      else
        let (sp, s3) := mkSpeedProfile g 96 s2
        .ok (⟨none, some sp, none⟩, s3)
    else if pt = "road_type" then
      match rchoice g ROAD_TYPES s1 with
      | .error e => .error e
      | .ok (rt, s2) => .ok (⟨none, none, some rt⟩, s2)
    else
      .ok (⟨none, none, none⟩, s1)

/-- The `modify_edge` branch: `if random.random() >= 0.2:` attach a patch,
otherwise omit the `patch` key entirely. -/
def mkModifyEdge {σ : Type} (g : RandGen σ) (edge_ids : List Nat) (s : σ) :
    Except PyErr (EventData × σ) :=
  match rchoice g edge_ids s with
  | .error e => .error e
  | .ok (eid, s1) =>
    let (r, s2) := g.random s1
    if mkRat 1 5 ≤ r then
      match mkPatch g s2 with
      | .error e => .error e
      | .ok (p, s3) => .ok (.modify_edge eid (some p), s3)
    else
      .ok (.modify_edge eid none, s2)

/-- The `remove_edge` branch. -/
def mkRemoveEdge {σ : Type} (g : RandGen σ) (edge_ids : List Nat) (s : σ) :
    Except PyErr (EventData × σ) :=
  match rchoice g edge_ids s with
  | .error e => .error e
  | .ok (eid, s1) => .ok (.remove_edge eid, s1)

/-- Pair the generated kind-specific payload with the event id
(`event = {"id": event_id}` followed by the branch's field assignments). -/
def wrapEvent {σ : Type} (event_id : Nat) (d : Except PyErr (EventData × σ)) :
    Except PyErr (Event × σ) :=
  match d with
  | .error e => .error e
  | .ok (d, s2) => .ok (⟨event_id, d⟩, s2)

/-- One iteration of the event loop: weighted kind selection
(`random.choices(..., weights=[40,30,20,10])` always yields a member of its
population, hence the `Fin 4` index) followed by the `if/elif` dispatch on
the kind string; the final arm is `remove_edge`, exactly as in the source. -/
def genEvent {σ : Type} (g : RandGen σ) (node_ids edge_ids : List Nat)
    (all_nodes : List Node) (event_id : Nat) (s : σ) : Except PyErr (Event × σ) :=
  let (t, s1) := g.choices4 s
  let event_type := (["shortest_path", "knn", "modify_edge", "remove_edge"]).getD t.val default
  wrapEvent event_id
    (if event_type = "shortest_path" then mkShortestPath g node_ids s1
     else if event_type = "knn" then mkKnn g all_nodes s1
     else if event_type = "modify_edge" then mkModifyEdge g edge_ids s1
     else mkRemoveEdge g edge_ids s1)

/-- `for _ in range(num_events)` with the running `event_id` counter. -/
def genEvents {σ : Type} (g : RandGen σ) (node_ids edge_ids : List Nat)
    (all_nodes : List Node) : Nat → Nat → σ → Except PyErr (List Event × σ)
  | 0, _, s => .ok ([], s)
  | n + 1, event_id, s =>
    match genEvent g node_ids edge_ids all_nodes event_id s with
    | .error e => .error e
    | .ok (ev, s1) =>
      match genEvents g node_ids edge_ids all_nodes n (event_id + 1) s1 with
      | .error e => .error e
      | .ok (evs, s2) => .ok (ev :: evs, s2)

/-- `generate_queries(graph_data, num_events)`. -/
def generate_queries {σ : Type} (g : RandGen σ) (graph_data : GraphDoc)
    (num_events : Nat) (s : σ) : Except PyErr (List Event × σ) :=
  let node_ids := graph_data.nodes.map Node.id
  let edge_ids := graph_data.edges.map Edge.id
  let all_nodes := graph_data.nodes
  genEvents g node_ids edge_ids all_nodes num_events 1 s

/-- Clamp a rational into `[0, 1)`; used to keep `constGen` lawful for every
parameter value. -/
def clamp01 (q : ℚ) : ℚ := if 0 ≤ q ∧ q < 1 then q else 0

/-- A concrete deterministic random source used to instantiate the theorems:
`random()` always returns `clamp01 q`, `uniform a b` returns
`a + (b - a) * clamp01 q`, `randint a b` returns `a`, `choice` picks index
`c` when in range (else `0`), `sample(range(n), k)` returns the first
`min k n` naturals, and the weighted kind draw returns `t`. -/
def constGen (q : ℚ) (t : Fin 4) (c : Nat) : RandGen Unit where
  random := fun s => (clamp01 q, s)
  uniform := fun a b s => (a + (b - a) * clamp01 q, s)
  randint := fun a _ s => (a, s)
  choiceIdx := fun n s => (if c < n then c else 0, s)
  sampleRange := fun n k s => ((List.range n).take k, s)
  choices4 := fun s => (t, s)

/-- Two ordered pairs denote the same undirected edge. -/
def unordEq (p q : Nat × Nat) : Prop :=
  (p.1 = q.1 ∧ p.2 = q.2) ∨ (p.1 = q.2 ∧ p.2 = q.1)

instance (p q : Nat × Nat) : Decidable (unordEq p q) := by
  unfold unordEq; infer_instance

/-- The `(u, v)` endpoint pairs of an edge list, in list order. -/
def edgePairs (edges : List Edge) : List (Nat × Nat) :=
  edges.map fun e => (e.u, e.v)

/-- A graph document with no nodes and no edges (what `generate_graph` yields
for `num_nodes = 0`), used to exercise the event generator's failure mode. -/
def emptyGraph : GraphDoc := ⟨⟨"autogen_graph", 0, "empty"⟩, [], []⟩

/-- Concrete run: the graph produced by `constGen 0 0 0` with 2 nodes, 1 edge. -/
def graphW : GraphDoc :=
  match generate_graph (constGen 0 0 0) 1 2 1 () with
  | some (.ok (G, _)) => G
  | _ => emptyGraph

/-- Concrete run: two events generated on `graphW` by `constGen 0 0 0`. -/
def eventsW : List Event :=
  match generate_queries (constGen 0 0 0) graphW 2 () with
  | .ok (evs, _) => evs
  | .error _ => []

/-- Concrete run: a one-node zero-edge graph whose node sits at
`lat = 19 + 1/2500000`, produced by `constGen (mkRat 1 500000) 0 0`. -/
def graph9 : GraphDoc :=
  match generate_graph (constGen (mkRat 1 500000) 0 0) 1 1 0 () with
  | some (.ok (G, _)) => G
  | _ => emptyGraph

/-- Concrete run: one event (a `knn`) generated on `graph9` by `constGen 0 1 0`. -/
def events9 : List Event :=
  match generate_queries (constGen 0 1 0) graph9 1 () with
  | .ok (evs, _) => evs
  | .error _ => []

/-- Concrete run: the patch of a `modify_edge` event generated by
`constGen (mkRat 1 2) 0 1` (the gate draw `1/2 ≥ 0.2` attaches a patch, and
choice index 1 selects the `speed_profile` field). -/
def patchW : Patch :=
  match mkModifyEdge (constGen (mkRat 1 2) 0 1) [1000] () with
  | .ok (.modify_edge _ (some p), _) => p
  | _ => ⟨none, none, none⟩

/-- A one-node graph node list carrying a POI, used to exercise the
`knn` poi selection. -/
def nodesP : List Node := [⟨0, 19, mkRat 364 5, ["hospital"]⟩]

lemma clamp01_nonneg (q : ℚ) : 0 ≤ clamp01 q := by
  unfold clamp01; split
  · exact (by assumption : 0 ≤ q ∧ q < 1).1
  · exact le_refl 0

lemma clamp01_lt_one (q : ℚ) : clamp01 q < 1 := by
  unfold clamp01; split
  · exact (by assumption : 0 ≤ q ∧ q < 1).2
  · norm_num

lemma lawful_constGen (q : ℚ) (t : Fin 4) (c : Nat) : LawfulGen (constGen q t c) := by
  constructor
  · intro s; exact clamp01_nonneg q
  · intro s; exact clamp01_lt_one q
  · intro a b s hab
    constructor
    · have h1 : 0 ≤ (b - a) * clamp01 q :=
        mul_nonneg (by linarith) (clamp01_nonneg q)
      simp only [constGen]; linarith
    · have h2 : (b - a) * clamp01 q ≤ (b - a) * 1 :=
        mul_le_mul_of_nonneg_left (le_of_lt (clamp01_lt_one q)) (by linarith)
      simp only [constGen]; linarith
  · intro a b s hab; exact ⟨le_refl a, hab⟩
  · intro n s hn
    simp only [constGen]
    split
    · assumption
    · exact hn
  · intro n k s
    simp only [constGen, List.length_take, List.length_range]
  · intro n k s
    exact ((List.take_sublist k (List.range n)).nodup (List.nodup_range n))
  · intro n k s x hx
    exact List.mem_range.mp (List.mem_of_mem_take hx)

lemma mkRat_eq_div' (n : ℤ) (d : ℕ) : (mkRat n d : ℚ) = (n : ℚ) / (d : ℚ) := by
  rw [Rat.mkRat_eq_divInt, Rat.divInt_eq_div]
  norm_num

lemma ratFloor_eq (q : ℚ) : Rat.floor q = ⌊q⌋ :=
  (Rat.floor_def' q).trans Rat.floor_def.symm

lemma pyRound_eq (q : ℚ) : pyRound q = round q := by
  rw [pyRound, round_eq, ratFloor_eq]
  norm_num [mkRat_eq_div']

lemma round2_eq (q : ℚ) : round2 q = ((round (q * 100) : ℤ) : ℚ) / 100 := by
  rw [round2, mkRat_eq_div', pyRound_eq]
  norm_num

lemma round6_eq (q : ℚ) : round6 q = ((round (q * 1000000) : ℤ) : ℚ) / 1000000 := by
  rw [round6, mkRat_eq_div', pyRound_eq]
  norm_num

lemma mk35_eq : (mkRat 3 5 : ℚ) = 3/5 := by rw [mkRat_eq_div']; norm_num

lemma mk12_eq : (mkRat 1 2 : ℚ) = 1/2 := by rw [mkRat_eq_div']; norm_num

lemma mk15_eq : (mkRat 1 5 : ℚ) = 1/5 := by rw [mkRat_eq_div']; norm_num

lemma mk310_eq : (mkRat 3 10 : ℚ) = 3/10 := by rw [mkRat_eq_div']; norm_num

lemma mk1200_eq : (mkRat 1 200 : ℚ) = 1/200 := by rw [mkRat_eq_div']; norm_num

lemma mkm1200_eq : (mkRat (-1) 200 : ℚ) = -(1/200) := by rw [mkRat_eq_div']; norm_num

lemma round_mono {a b : ℚ} (h : a ≤ b) : round a ≤ round b := by
  rw [round_eq, round_eq]
  exact Int.floor_le_floor (by linarith)

lemma round2_mono {a b : ℚ} (h : a ≤ b) : round2 a ≤ round2 b := by
  rw [round2_eq, round2_eq]
  have := round_mono (by linarith : a * 100 ≤ b * 100)
  have h100 : (0 : ℚ) ≤ 100 := by norm_num
  exact div_le_div_of_nonneg_right (by exact_mod_cast this) h100

lemma round2_intCast (n : ℤ) : round2 (n : ℚ) = n := by
  rw [round2_eq]
  have : ((n : ℚ) * 100) = ((n * 100 : ℤ) : ℚ) := by push_cast; ring
  rw [this, round_intCast]
  push_cast
  field_simp

lemma round2_bounds {a b : ℤ} {v : ℚ} (h1 : (a : ℚ) ≤ v) (h2 : v ≤ (b : ℚ)) :
    (a : ℚ) ≤ round2 v ∧ round2 v ≤ (b : ℚ) := by
  constructor
  · calc (a : ℚ) = round2 (a : ℚ) := (round2_intCast a).symm
      _ ≤ round2 v := round2_mono h1
  · calc round2 v ≤ round2 (b : ℚ) := round2_mono h2
      _ = (b : ℚ) := round2_intCast b

lemma abs_round6_sub (x : ℚ) : |round6 x - x| ≤ 1/2000000 := by
  rw [round6_eq]
  have key : |x * 1000000 - round (x * 1000000)| ≤ 1 / 2 := abs_sub_round (x * 1000000)
  have : ((round (x * 1000000) : ℤ) : ℚ) / 1000000 - x
      = -((x * 1000000 - (round (x * 1000000) : ℤ)) / 1000000) := by ring
  rw [this, abs_neg, abs_div]
  rw [abs_of_pos (by norm_num : (0:ℚ) < 1000000)]
  linarith

lemma rchoice_ok_mem {σ α : Type} {g : RandGen σ} {l : List α} {s : σ} {x : α} {s2 : σ}
    (h : rchoice g l s = .ok (x, s2)) : x ∈ l := by
  unfold rchoice at h
  rcases he : g.choiceIdx l.length s with ⟨i, s1⟩
  rw [he] at h
  dsimp only at h
  rcases hg : l.get? i with _ | y
  · rw [hg] at h; exact absurd h (by simp)
  · rw [hg] at h
    simp only [Except.ok.injEq, Prod.mk.injEq] at h
    rw [← h.1]
    exact List.get?_mem hg

lemma rchoice_nil {σ α : Type} (g : RandGen σ) (s : σ) :
    rchoice g ([] : List α) s = .error .indexError := by
  unfold rchoice
  simp

lemma unordEq_symm {p q : Nat × Nat} (h : unordEq p q) : unordEq q p := by
  unfold unordEq at h ⊢
  tauto

lemma unordEq_cases {u v : Nat} {q : Nat × Nat} (h : unordEq (u, v) q) :
    q = (u, v) ∨ q = (v, u) := by
  unfold unordEq at h
  rcases h with ⟨h1, h2⟩ | ⟨h1, h2⟩
  · left; cases q; simp_all
  · right; cases q; simp_all

lemma mkSpeedProfile_succ {σ : Type} (g : RandGen σ) (n : Nat) (s : σ) :
    (mkSpeedProfile g (n + 1) s).1
      = round2 (g.uniform 20 60 s).1 :: (mkSpeedProfile g n (g.uniform 20 60 s).2).1 :=
  rfl

lemma mkSpeedProfile_length {σ : Type} (g : RandGen σ) (n : Nat) (s : σ) :
    ((mkSpeedProfile g n s).1).length = n := by
  induction n generalizing s with
  | zero => rfl
  | succ n ih =>
    rw [mkSpeedProfile_succ, List.length_cons, ih]

lemma mkSpeedProfile_mem {σ : Type} {g : RandGen σ} (hg : LawfulGen g) (n : Nat) (s : σ) :
    ∀ q ∈ (mkSpeedProfile g n s).1, ∃ v, 20 ≤ v ∧ v ≤ 60 ∧ q = round2 v := by
  induction n generalizing s with
  | zero => intro q hq; exact absurd hq (by simp [mkSpeedProfile])
  | succ n ih =>
    intro q hq
    rw [mkSpeedProfile_succ, List.mem_cons] at hq
    rcases hq with hq | hq
    · exact ⟨(g.uniform 20 60 s).1, (hg.uniform_le 20 60 s (by norm_num)).1,
        (hg.uniform_le 20 60 s (by norm_num)).2, hq⟩
    · exact ih (g.uniform 20 60 s).2 q hq

/-- The characteristic property of a profile entry: a value drawn uniformly
from `[20, 60]` and rounded to two decimals, which in particular stays in
`[20, 60]`. -/
lemma mkSpeedProfile_spec {σ : Type} {g : RandGen σ} (hg : LawfulGen g) (n : Nat) (s : σ) :
    ∀ q ∈ (mkSpeedProfile g n s).1,
      (∃ v, 20 ≤ v ∧ v ≤ 60 ∧ q = round2 v) ∧ 20 ≤ q ∧ q ≤ 60 := by
  intro q hq
  obtain ⟨v, h1, h2, h3⟩ := mkSpeedProfile_mem hg n s q hq
  have hb := round2_bounds (a := 20) (b := 60) (by exact_mod_cast h1) (by exact_mod_cast h2)
  refine ⟨⟨v, h1, h2, h3⟩, ?_, ?_⟩
  · rw [h3]; exact_mod_cast hb.1
  · rw [h3]; exact_mod_cast hb.2

lemma mkEdgeAttrs_id {σ : Type} (g : RandGen σ) (eid u v : Nat) (s : σ) :
    (mkEdgeAttrs g eid u v s).1.id = eid := rfl

lemma mkEdgeAttrs_u {σ : Type} (g : RandGen σ) (eid u v : Nat) (s : σ) :
    (mkEdgeAttrs g eid u v s).1.u = u := rfl

lemma mkEdgeAttrs_v {σ : Type} (g : RandGen σ) (eid u v : Nat) (s : σ) :
    (mkEdgeAttrs g eid u v s).1.v = v := rfl

lemma mkEdgeAttrs_sp {σ : Type} (g : RandGen σ) (eid u v : Nat) (s : σ) :
    (mkEdgeAttrs g eid u v s).1.speed_profile
      = (mkSpeedProfile g 96 (g.uniform 5 25 (g.uniform 50 500 s).2).2).1 := rfl

lemma mkEdgeAttrs_profile {σ : Type} {g : RandGen σ} (hg : LawfulGen g)
    (eid u v : Nat) (s : σ) :
    (mkEdgeAttrs g eid u v s).1.speed_profile.length = 96 ∧
      ∀ q ∈ (mkEdgeAttrs g eid u v s).1.speed_profile,
        (∃ w, 20 ≤ w ∧ w ≤ 60 ∧ q = round2 w) ∧ 20 ≤ q ∧ q ≤ 60 := by
  rw [mkEdgeAttrs_sp]
  exact ⟨mkSpeedProfile_length g 96 _, mkSpeedProfile_spec hg 96 _⟩

lemma mkNode_id {σ : Type} (g : RandGen σ) (i : Nat) (s : σ) :
    (mkNode g i s).1.id = i := rfl

lemma mkNodes_cons {σ : Type} (g : RandGen σ) (i : Nat) (is : List Nat) (s : σ) :
    (mkNodes g (i :: is) s).1
      = (mkNode g i s).1 :: (mkNodes g is (mkNode g i s).2).1 := rfl

lemma mkNodes_map_id {σ : Type} (g : RandGen σ) (ids : List Nat) (s : σ) :
    ((mkNodes g ids s).1).map Node.id = ids := by
  induction ids generalizing s with
  | nil => rfl
  | cons i is ih =>
    rw [mkNodes_cons, List.map_cons, mkNode_id, ih]

lemma doubleton_eq_iff {a b : Nat × Nat} (ha : a.1 ≠ a.2)
    (h : ({a.1, a.2} : Finset Nat) = {b.1, b.2}) : unordEq a b := by
  have h1 : a.1 ∈ ({b.1, b.2} : Finset Nat) := by
    rw [← h]; simp
  have h2 : a.2 ∈ ({b.1, b.2} : Finset Nat) := by
    rw [← h]; simp
  simp only [Finset.mem_insert, Finset.mem_singleton] at h1 h2
  unfold unordEq
  rcases h1 with h1 | h1
  · rcases h2 with h2 | h2
    · exact absurd (h1.trans h2.symm) ha
    · exact Or.inl ⟨h1, h2⟩
  · rcases h2 with h2 | h2
    · exact Or.inr ⟨h1, h2⟩
    · exact absurd (h1.trans h2.symm) ha

/-- A list of pairwise-distinct undirected pairs over `n` nodes, with no
self-pairs, has at most `n.choose 2` elements. -/
lemma length_le_choose (n : Nat) (eset : List (Nat × Nat))
    (hpw : List.Pairwise (fun p q => ¬ unordEq p q) eset)
    (hmem : ∀ p ∈ eset, p.1 ≠ p.2 ∧ p.1 < n ∧ p.2 < n) :
    eset.length ≤ n.choose 2 := by
  classical
  set f : Nat × Nat → Finset Nat := fun p => {p.1, p.2} with hf
  have hnd : (eset.map f).Nodup := by
    unfold List.Nodup
    rw [List.pairwise_map]
    refine List.Pairwise.imp_of_mem ?_ hpw
    intro a b ha hb hne hfe
    exact hne (doubleton_eq_iff (hmem a ha).1 hfe)
  have hsub : (eset.map f).toFinset ⊆ Finset.powersetCard 2 (Finset.range n) := by
    intro t ht
    rw [List.mem_toFinset] at ht
    obtain ⟨p, hp, rfl⟩ := List.mem_map.mp ht
    rw [Finset.mem_powersetCard]
    constructor
    · intro x hx
      simp only [hf, Finset.mem_insert, Finset.mem_singleton] at hx
      rcases hx with rfl | rfl
      · exact Finset.mem_range.mpr (hmem p hp).2.1
      · exact Finset.mem_range.mpr (hmem p hp).2.2
    · exact Finset.card_pair (hmem p hp).1
  calc eset.length = (eset.map f).length := (List.length_map eset f).symm
    _ = (eset.map f).toFinset.card := (List.toFinset_card_of_nodup hnd).symm
    _ ≤ (Finset.powersetCard 2 (Finset.range n)).card := Finset.card_le_card hsub
    _ = (Finset.range n).card.choose 2 := Finset.card_powersetCard 2 (Finset.range n)
    _ = n.choose 2 := by rw [Finset.card_range]

lemma edgeLoop_exit {σ : Type} (g : RandGen σ) (n m fuel : Nat) (edges : List Edge)
    (eset : List (Nat × Nat)) (s : σ) (h : ¬ edges.length < m) :
    edgeLoop g n m fuel edges eset s = some (.ok (edges, s)) := by
  rw [edgeLoop.eq_def]
  simp only [if_neg h]

lemma edgeLoop_zero {σ : Type} (g : RandGen σ) (n m : Nat) (edges : List Edge)
    (eset : List (Nat × Nat)) (s : σ) (h : edges.length < m) :
    edgeLoop g n m 0 edges eset s = none := by
  rw [edgeLoop.eq_def]
  simp only [if_pos h]

lemma edgeLoop_succ {σ : Type} (g : RandGen σ) (n m fuel : Nat) (edges : List Edge)
    (eset : List (Nat × Nat)) (s : σ) (h : edges.length < m) :
    edgeLoop g n m (fuel + 1) edges eset s =
      (match (g.sampleRange n 2 s).1 with
       | [u, v] =>
         if u = v ∨ (u, v) ∈ eset ∨ (v, u) ∈ eset then
           edgeLoop g n m fuel edges eset (g.sampleRange n 2 s).2
         else
           edgeLoop g n m fuel
             (edges ++ [(mkEdgeAttrs g (1000 + edges.length) u v (g.sampleRange n 2 s).2).1])
             ((u, v) :: eset)
             (mkEdgeAttrs g (1000 + edges.length) u v (g.sampleRange n 2 s).2).2
       | _ => some (.error .valueError)) := by
  rw [edgeLoop.eq_def]
  simp only [if_pos h]

/-- Master invariant lemma for successful runs of the rejection-sampling
loop: starting from a state whose accumulated edges and pair set are
consistent, a successful exit returns exactly `m` edges with ids
`1000, 1001, …`, pairwise-distinct undirected endpoint pairs, no self-loops,
and any per-edge property `P` guaranteed by `mkEdgeAttrs`. -/
lemma edgeLoop_ok_inv {σ : Type} (g : RandGen σ) (P : Edge → Prop)
    (hP : ∀ eid u v s, P (mkEdgeAttrs g eid u v s).1) (n m : Nat) :
    ∀ fuel edges eset s out s2,
      edgeLoop g n m fuel edges eset s = some (.ok (out, s2)) →
      eset = (edgePairs edges).reverse →
      List.Pairwise (fun p q => ¬ unordEq p q) eset →
      (∀ p ∈ eset, p.1 ≠ p.2) →
      edges.map Edge.id = List.range' 1000 edges.length →
      (∀ e ∈ edges, P e) →
      edges.length ≤ m →
      out.length = m ∧
      List.Pairwise (fun p q => ¬ unordEq p q) (edgePairs out) ∧
      (∀ e ∈ out, e.u ≠ e.v) ∧
      out.map Edge.id = List.range' 1000 m ∧
      (∀ e ∈ out, P e) := by
  intro fuel
  induction fuel with
  | zero =>
    intro edges eset s out s2 hrun hset hpw hself hids hprop hlen
    by_cases hlt : edges.length < m
    · rw [edgeLoop_zero g n m edges eset s hlt] at hrun
      exact absurd hrun (by simp)
    · rw [edgeLoop_exit g n m 0 edges eset s hlt] at hrun
      simp only [Option.some.injEq, Except.ok.injEq, Prod.mk.injEq] at hrun
      obtain ⟨rfl, rfl⟩ := hrun
      have hm : edges.length = m := by omega
      refine ⟨hm, ?_, ?_, by rw [hids, hm], hprop⟩
      · rw [hset, List.pairwise_reverse] at hpw
        exact hpw.imp (fun h h2 => h (unordEq_symm h2))
      · intro e he
        have : (e.u, e.v) ∈ eset := by
          rw [hset, List.mem_reverse]
          exact List.mem_map.mpr ⟨e, he, rfl⟩
        exact hself _ this
  | succ fuel ih =>
    intro edges eset s out s2 hrun hset hpw hself hids hprop hlen
    by_cases hlt : edges.length < m
    · rw [edgeLoop_succ g n m fuel edges eset s hlt] at hrun
      rcases hl : (g.sampleRange n 2 s).1 with _ | ⟨u, _ | ⟨v, _ | ⟨w, tl⟩⟩⟩
      · rw [hl] at hrun; exact absurd hrun (by simp)
      · rw [hl] at hrun; exact absurd hrun (by simp)
      · rw [hl] at hrun
        simp only at hrun
        by_cases hguard : u = v ∨ (u, v) ∈ eset ∨ (v, u) ∈ eset
        · rw [if_pos hguard] at hrun
          exact ih edges eset _ out s2 hrun hset hpw hself hids hprop hlen
        · rw [if_neg hguard] at hrun
          push_neg at hguard
          obtain ⟨huv, hmem1, hmem2⟩ := hguard
          set e := (mkEdgeAttrs g (1000 + edges.length) u v (g.sampleRange n 2 s).2).1 with he
          refine ih (edges ++ [e]) ((u, v) :: eset) _ out s2 hrun ?_ ?_ ?_ ?_ ?_ ?_
          · rw [hset]
            unfold edgePairs
            rw [List.map_append, List.reverse_append]
            simp [he, mkEdgeAttrs_u, mkEdgeAttrs_v]
          · rw [List.pairwise_cons]
            refine ⟨?_, hpw⟩
            intro q hq hne
            rcases unordEq_cases hne with rfl | rfl
            · exact hmem1 hq
            · exact hmem2 hq
          · intro p hp
            rcases List.mem_cons.mp hp with rfl | hp
            · exact huv
            · exact hself p hp
          · rw [List.map_append, List.length_append]
            simp only [List.map_cons, List.map_nil, he, mkEdgeAttrs_id, List.length_cons,
              List.length_nil]
            rw [hids, List.range'_1_concat]
          · intro x hx
            rcases List.mem_append.mp hx with hx | hx
            · exact hprop x hx
            · rw [List.mem_singleton] at hx
              rw [hx, he]
              exact hP _ u v _
          · rw [List.length_append]
            simp only [List.length_cons, List.length_nil]
            omega
      · rw [hl] at hrun; exact absurd hrun (by simp)
    · rw [edgeLoop_exit g n m (fuel + 1) edges eset s hlt] at hrun
      simp only [Option.some.injEq, Except.ok.injEq, Prod.mk.injEq] at hrun
      obtain ⟨rfl, rfl⟩ := hrun
      have hm : edges.length = m := by omega
      refine ⟨hm, ?_, ?_, by rw [hids, hm], hprop⟩
      · rw [hset, List.pairwise_reverse] at hpw
        exact hpw.imp (fun h h2 => h (unordEq_symm h2))
      · intro e he
        have : (e.u, e.v) ∈ eset := by
          rw [hset, List.mem_reverse]
          exact List.mem_map.mpr ⟨e, he, rfl⟩
        exact hself _ this

/-- When more edges are requested than there are undirected node pairs, the
rejection-sampling loop can never succeed: whatever the fuel, it spins until
the fuel runs out (`none`), i.e. the source's `while` loop never terminates. -/
lemma edgeLoop_stuck {σ : Type} {g : RandGen σ} (hg : LawfulGen g) (n m : Nat)
    (h2 : 2 ≤ n) (hm : n.choose 2 < m) :
    ∀ fuel edges eset s,
      List.Pairwise (fun p q => ¬ unordEq p q) eset →
      (∀ p ∈ eset, p.1 ≠ p.2 ∧ p.1 < n ∧ p.2 < n) →
      edges.length = eset.length →
      edgeLoop g n m fuel edges eset s = none := by
  intro fuel
  induction fuel with
  | zero =>
    intro edges eset s hpw hmem hlen
    have hbound := length_le_choose n eset hpw hmem
    exact edgeLoop_zero g n m edges eset s (by omega)
  | succ fuel ih =>
    intro edges eset s hpw hmem hlen
    have hbound := length_le_choose n eset hpw hmem
    rw [edgeLoop_succ g n m fuel edges eset s (by omega)]
    have hslen : ((g.sampleRange n 2 s).1).length = 2 := by
      rw [hg.sampleRange_len n 2 s]
      omega
    rcases hl : (g.sampleRange n 2 s).1 with _ | ⟨u, _ | ⟨v, _ | ⟨w, tl⟩⟩⟩ <;>
      rw [hl] at hslen <;> simp at hslen
    have hu : u < n := hg.sampleRange_mem n 2 s u (by rw [hl]; simp)
    have hv : v < n := hg.sampleRange_mem n 2 s v (by rw [hl]; simp)
    simp only
    by_cases hguard : u = v ∨ (u, v) ∈ eset ∨ (v, u) ∈ eset
    · rw [if_pos hguard]
      exact ih edges eset _ hpw hmem hlen
    · rw [if_neg hguard]
      push_neg at hguard
      obtain ⟨huv, hmem1, hmem2⟩ := hguard
      refine ih _ ((u, v) :: eset) _ ?_ ?_ ?_
      · rw [List.pairwise_cons]
        refine ⟨?_, hpw⟩
        intro q hq hne
        rcases unordEq_cases hne with rfl | rfl
        · exact hmem1 hq
        · exact hmem2 hq
      · intro p hp
        rcases List.mem_cons.mp hp with rfl | hp
        · exact ⟨huv, hu, hv⟩
        · exact hmem p hp
      · simp only [List.length_append, List.length_cons, List.length_nil]
        omega

lemma wrapEvent_id {σ : Type} (eid : Nat) (x : Except PyErr (EventData × σ))
    (ev : Event) (s2 : σ) (h : wrapEvent eid x = .ok (ev, s2)) : ev.id = eid := by
  rcases x with e | ⟨d, s3⟩
  · exact absurd h (by simp [wrapEvent])
  · unfold wrapEvent at h
    simp only [Except.ok.injEq, Prod.mk.injEq] at h
    rw [← h.1]

lemma genEvent_id {σ : Type} (g : RandGen σ) (nis eis : List Nat) (ans : List Node)
    (eid : Nat) (s : σ) (ev : Event) (s2 : σ)
    (h : genEvent g nis eis ans eid s = .ok (ev, s2)) : ev.id = eid := by
  unfold genEvent at h
  exact wrapEvent_id eid _ ev s2 h

lemma genEvents_ids {σ : Type} (g : RandGen σ) (nis eis : List Nat) (ans : List Node) :
    ∀ k i s evs s2, genEvents g nis eis ans k i s = .ok (evs, s2) →
      evs.map Event.id = List.range' i k := by
  intro k
  induction k with
  | zero =>
    intro i s evs s2 h
    unfold genEvents at h
    simp only [Except.ok.injEq, Prod.mk.injEq] at h
    rw [← h.1]
    rfl
  | succ k ih =>
    intro i s evs s2 h
    unfold genEvents at h
    rcases hE : genEvent g nis eis ans i s with e | ⟨ev, s1⟩
    · rw [hE] at h; exact absurd h (by simp)
    · rw [hE] at h
      dsimp only at h
      rcases hR : genEvents g nis eis ans k (i + 1) s1 with e | ⟨evs1, s3⟩
      · rw [hR] at h; exact absurd h (by simp)
      · rw [hR] at h
        simp only [Except.ok.injEq, Prod.mk.injEq] at h
        obtain ⟨rfl, rfl⟩ := h
        rw [List.map_cons, genEvent_id g nis eis ans i s ev s1 hE,
          ih (i + 1) s1 evs1 s3 hR, List.range'_succ]

/-- Shape of a successful `generate_graph` run: the nodes come from the node
loop and the edges from a successful run of the rejection-sampling loop. -/
lemma generate_graph_ok {σ : Type} (g : RandGen σ) (fuel n m : Nat) (s : σ)
    (G : GraphDoc) (s2 : σ) (h : generate_graph g fuel n m s = some (.ok (G, s2))) :
    G.nodes = (mkNodes g (List.range n) s).1 ∧
    edgeLoop g n m fuel [] [] (mkNodes g (List.range n) s).2 = some (.ok (G.edges, s2)) := by
  unfold generate_graph at h
  rcases hN : mkNodes g (List.range n) s with ⟨nodes, s1⟩
  rw [hN] at h
  dsimp only at h
  rcases hE : edgeLoop g n m fuel [] [] s1 with _ | e
  · rw [hE] at h; exact absurd h (by simp)
  · rcases e with e | ⟨edges, sE⟩
    · rw [hE] at h; exact absurd h (by simp)
    · rw [hE] at h
      simp only [Option.some.injEq, Except.ok.injEq, Prod.mk.injEq] at h
      obtain ⟨rfl, rfl⟩ := h
      exact ⟨rfl, rfl⟩

/-- C1: when `num_edges` exceeds the number of distinct unordered node pairs
(`num_nodes * (num_nodes - 1) / 2`), the source's rejection-sampling loop can
never finish: for every fuel bound and every lawful random source the fueled
model returns `none` (the loop is still spinning), so `generate_graph` hangs
instead of failing fast with `InvalidParameter` as the specification
requires.  This theorem evaluates the code at the failing inputs; the
specified `InvalidParameter` fail-fast behaviour does not exist in the code. -/
theorem claim_C1 {σ : Type} (g : RandGen σ) (hg : LawfulGen g) (fuel : Nat) (s : σ)
    (n m : Nat) (h2 : 2 ≤ n) (hm : n * (n - 1) / 2 < m) :
    generate_graph g fuel n m s = none := by
  have hm2 : n.choose 2 < m := by rw [Nat.choose_two_right]; exact hm
  unfold generate_graph
  rcases hN : mkNodes g (List.range n) s with ⟨nodes, s1⟩
  dsimp only
  rw [edgeLoop_stuck hg n m h2 hm2 fuel [] [] s1 (by simp) (by simp) (by simp)]

/-- C1 witness: the concrete scenario of the claim, `num_nodes = 5`,
`num_edges = 11 > 10`, with a concrete lawful source and fuel 5. -/
theorem claim_C1_witness : generate_graph (constGen 0 0 0) 5 5 11 () = none :=
  claim_C1 (constGen 0 0 0) (lawful_constGen 0 0 0) 5 () 5 11 (by norm_num) (by norm_num)

/-- C2: every graph `generate_graph` returns has no self-loop (`u ≠ v` for
every edge) and no two edges sharing the same unordered endpoint pair. -/
theorem claim_C2 {σ : Type} (g : RandGen σ) (fuel n m : Nat) (s : σ) (G : GraphDoc)
    (s2 : σ) (h : generate_graph g fuel n m s = some (.ok (G, s2))) :
    (∀ e ∈ G.edges, e.u ≠ e.v) ∧
    List.Pairwise (fun p q => ¬ unordEq p q) (edgePairs G.edges) := by
  obtain ⟨-, hE⟩ := generate_graph_ok g fuel n m s G s2 h
  have hres := edgeLoop_ok_inv g (fun _ => True) (fun _ _ _ _ => trivial) n m fuel
    [] [] _ G.edges s2 hE rfl (by simp) (by simp) (by simp) (by simp) (by simp)
  exact ⟨hres.2.2.1, hres.2.1⟩

/-- C2 witness: a concrete generated graph (2 nodes, 1 edge). -/
theorem claim_C2_witness :
    (∀ e ∈ graphW.edges, e.u ≠ e.v) ∧
    List.Pairwise (fun p q => ¬ unordEq p q) (edgePairs graphW.edges) :=
  claim_C2 (constGen 0 0 0) 1 2 1 () graphW () (by rfl)

/-- C3: for every successfully generated graph and every successfully
generated event list, the node ids are exactly `0 .. num_nodes - 1` in
order, the edge ids are exactly `1000 .. 1000 + num_edges - 1` in creation
order, and the event ids are exactly `1 .. num_events` in order, regardless
of which event kinds were drawn. -/
theorem claim_C3 {σ τ : Type} (g : RandGen σ) (fuel n m : Nat) (s : σ) (G : GraphDoc)
    (sG : σ) (hG : generate_graph g fuel n m s = some (.ok (G, sG)))
    (g2 : RandGen τ) (nev : Nat) (sq : τ) (evs : List Event) (sq2 : τ)
    (hQ : generate_queries g2 G nev sq = .ok (evs, sq2)) :
    G.nodes.map Node.id = List.range n ∧
    G.edges.map Edge.id = List.range' 1000 m ∧
    evs.map Event.id = List.range' 1 nev := by
  obtain ⟨hnodes, hE⟩ := generate_graph_ok g fuel n m s G sG hG
  refine ⟨by rw [hnodes]; exact mkNodes_map_id g (List.range n) s, ?_, ?_⟩
  · have hres := edgeLoop_ok_inv g (fun _ => True) (fun _ _ _ _ => trivial) n m fuel
      [] [] _ G.edges sG hE rfl (by simp) (by simp) (by simp) (by simp) (by simp)
    exact hres.2.2.2.1
  · exact genEvents_ids g2 _ _ _ nev 1 sq evs sq2 hQ

/-- C3 witness: the concrete graph `graphW` (2 nodes, 1 edge) and a concrete
two-event run on it. -/
theorem claim_C3_witness :
    graphW.nodes.map Node.id = List.range 2 ∧
    graphW.edges.map Edge.id = List.range' 1000 1 ∧
    eventsW.map Event.id = List.range' 1 2 :=
  claim_C3 (constGen 0 0 0) 1 2 1 () graphW () (by rfl)
    (constGen 0 0 0) 2 () eventsW () (by rfl)

/-- C10: with `num_edges = 0` the rejection-sampling loop is never entered
(the theorem holds even with zero fuel), and `generate_graph` succeeds for
every `num_nodes ≥ 0` — including `0` and `1`, which the documented contract
would reject — returning exactly `num_nodes` nodes and an empty edge list. -/
theorem claim_C10 {σ : Type} (g : RandGen σ) (fuel n : Nat) (s : σ) :
    ∃ G s2, generate_graph g fuel n 0 s = some (.ok (G, s2)) ∧
      G.nodes.map Node.id = List.range n ∧ G.nodes.length = n ∧ G.edges = [] := by
  refine ⟨⟨⟨"autogen_graph", n, "Auto-generated graph for full system test"⟩,
    (mkNodes g (List.range n) s).1, []⟩, (mkNodes g (List.range n) s).2, ?_, ?_, ?_, rfl⟩
  · unfold generate_graph
    rcases hN : mkNodes g (List.range n) s with ⟨nodes, s1⟩
    dsimp only
    rw [edgeLoop_exit g n 0 fuel [] [] s1 (by simp)]
  · exact mkNodes_map_id g (List.range n) s
  · have hl := congrArg List.length (mkNodes_map_id g (List.range n) s)
    rw [List.length_map, List.length_range] at hl
    exact hl

lemma rchoice_error_eq {σ α : Type} {g : RandGen σ} {l : List α} {s : σ} {e : PyErr}
    (h : rchoice g l s = .error e) : e = PyErr.indexError := by
  unfold rchoice at h
  rcases he : g.choiceIdx l.length s with ⟨i, s1⟩
  rw [he] at h
  dsimp only at h
  rcases hg : l.get? i with _ | y
  · rw [hg] at h
    simp only [Except.error.injEq] at h
    exact h.symm
  · rw [hg] at h
    exact absurd h (by simp)

lemma mkShortestPath_nil {σ : Type} (g : RandGen σ) (s : σ) :
    mkShortestPath g [] s = .error .indexError := by
  unfold mkShortestPath
  rw [rchoice_nil]

lemma mkKnn_nil {σ : Type} (g : RandGen σ) (s : σ) :
    mkKnn g [] s = .error .indexError := by
  unfold mkKnn
  rcases hk : g.randint 3 10 s with ⟨k, s1⟩
  dsimp only
  rcases hp : rchoice g POIS s1 with e | ⟨poi, s2⟩
  · have he : e = PyErr.indexError := rchoice_error_eq hp
    subst he
    simp
  · simp [rchoice_nil]

lemma mkModifyEdge_nil {σ : Type} (g : RandGen σ) (s : σ) :
    mkModifyEdge g [] s = .error .indexError := by
  unfold mkModifyEdge
  rw [rchoice_nil]

lemma mkRemoveEdge_nil {σ : Type} (g : RandGen σ) (s : σ) :
    mkRemoveEdge g [] s = .error .indexError := by
  unfold mkRemoveEdge
  rw [rchoice_nil]

/-- On a zero-node (hence zero-edge) graph, every one of the four event kinds
hits `random.choice` on an empty sequence. -/
lemma genEvent_nil {σ : Type} (g : RandGen σ) (eid : Nat) (s : σ) :
    genEvent g [] [] [] eid s = .error .indexError := by
  unfold genEvent
  rcases ht : g.choices4 s with ⟨t, s1⟩
  dsimp only
  obtain ⟨tv, htv⟩ := t
  interval_cases tv <;>
    simp [wrapEvent, mkShortestPath_nil, mkKnn_nil, mkModifyEdge_nil, mkRemoveEdge_nil]

lemma genEvent_no_edges {σ : Type} (g : RandGen σ) (node_ids : List Nat)
    (all_nodes : List Node) (eid : Nat) (s : σ)
    (ht : ((g.choices4 s).1.val = 2 ∨ (g.choices4 s).1.val = 3)) :
    genEvent g node_ids [] all_nodes eid s = .error .indexError := by
  unfold genEvent
  rcases hc : g.choices4 s with ⟨t, s1⟩
  rw [hc] at ht
  obtain ⟨tv, htv⟩ := t
  dsimp only at ht ⊢
  rcases ht with h2 | h3
  · subst h2
    simp [wrapEvent, mkModifyEdge_nil]
  · subst h3
    simp [wrapEvent, mkRemoveEdge_nil]

/-- C4: requesting events against a zero-node graph (first conjunct), or
drawing an edge-targeting event kind (`modify_edge` = index 2,
`remove_edge` = index 3) against a graph with no edges (second conjunct),
makes `generate_queries` raise `IndexError` from `random.choice` on an empty
sequence — not the descriptive `EmptyGraph` error the specification
requires. -/
theorem claim_C4 :
    (∀ (σ : Type) (g : RandGen σ) (s : σ) (nev : Nat) (G : GraphDoc),
       G.nodes = [] → G.edges = [] →
       generate_queries g G (nev + 1) s = .error .indexError) ∧
    (∀ (σ : Type) (g : RandGen σ) (node_ids : List Nat) (all_nodes : List Node)
       (eid : Nat) (s : σ),
       (((g.choices4 s).1.val = 2 ∨ (g.choices4 s).1.val = 3)) →
       genEvent g node_ids [] all_nodes eid s = .error .indexError) := by
  constructor
  · intro σ g s nev G hn he
    unfold generate_queries
    rw [hn, he]
    dsimp only [List.map_nil]
    unfold genEvents
    rw [genEvent_nil]
  · intro σ g node_ids all_nodes eid s ht
    exact genEvent_no_edges g node_ids all_nodes eid s ht

/-- C4 witness: a concrete run on the empty graph, and a concrete
`modify_edge` draw against a graph with nodes but no edges. -/
theorem claim_C4_witness :
    generate_queries (constGen 0 0 0) emptyGraph 1 () = .error .indexError ∧
    genEvent (constGen 0 2 0) [0] [] [⟨0, 19, 364/5, []⟩] 1 () = .error .indexError :=
  ⟨claim_C4.1 Unit (constGen 0 0 0) () 0 emptyGraph rfl rfl,
   claim_C4.2 Unit (constGen 0 2 0) [0] [⟨0, 19, 364/5, []⟩] 1 () (Or.inl rfl)⟩

lemma mkConstraints_eq {σ : Type} (g : RandGen σ) (node_ids : List Nat) (s : σ) :
    (mkConstraints g node_ids s).1 =
      if (g.random s).1 < mkRat 3 5 then
        (if (drawFn g node_ids (g.random s).2).1.isSome ∨
            (drawFrt g (drawFn g node_ids (g.random s).2).2).1.isSome then
          some ⟨(drawFn g node_ids (g.random s).2).1,
                (drawFrt g (drawFn g node_ids (g.random s).2).2).1⟩
        else none)
      else none := by
  unfold mkConstraints
  rcases hr : g.random s with ⟨r, s1⟩
  dsimp only
  rcases hfn : drawFn g node_ids s1 with ⟨fn, s2⟩
  dsimp only
  rcases hfrt : drawFrt g s2 with ⟨frt, s3⟩
  dsimp only
  split_ifs <;> rfl

lemma drawFn_isSome {σ : Type} (g : RandGen σ) (node_ids : List Nat) (s : σ) :
    (drawFn g node_ids s).1.isSome ↔
      ((g.random s).1 < mkRat 1 2 ∧ 5 < node_ids.length) := by
  unfold drawFn
  rcases hr : g.random s with ⟨r, s1⟩
  dsimp only
  split_ifs with h
  · simpa using h
  · simpa using h

lemma drawFrt_isSome {σ : Type} (g : RandGen σ) (s : σ) :
    (drawFrt g s).1.isSome ↔ (g.random s).1 < mkRat 1 2 := by
  unfold drawFrt
  rcases hr : g.random s with ⟨r, s1⟩
  dsimp only
  split_ifs with h
  · simpa using h
  · simpa using h

/-- C5: for a `shortest_path` event, the `constraints` key is present iff the
outer `random.random() < 0.6` gate passed and at least one sub-attempt
succeeded; the `forbidden_nodes` sub-attempt succeeds iff its own coin came
up and the graph has more than 5 nodes; the `forbidden_road_types`
sub-attempt succeeds iff its coin came up; and an emitted constraints object
always carries at least one of the two keys (an empty one is never emitted).
The last conjunct ties this to `mkShortestPath`: every constraints field of
a generated `shortest_path` event is an output of this very block. -/
theorem claim_C5 {σ : Type} (g : RandGen σ) (s : σ) (node_ids : List Nat) :
    (((mkConstraints g node_ids s).1.isSome ↔
       ((g.random s).1 < 3/5 ∧
        ((drawFn g node_ids (g.random s).2).1.isSome ∨
         (drawFrt g (drawFn g node_ids (g.random s).2).2).1.isSome))) ∧
     (∀ c, (mkConstraints g node_ids s).1 = some c →
        c = ⟨(drawFn g node_ids (g.random s).2).1,
             (drawFrt g (drawFn g node_ids (g.random s).2).2).1⟩ ∧
        (c.forbidden_nodes.isSome ∨ c.forbidden_road_types.isSome)) ∧
     ((drawFn g node_ids (g.random s).2).1.isSome ↔
       ((g.random (g.random s).2).1 < 1/2 ∧ 5 < node_ids.length)) ∧
     ((drawFrt g (drawFn g node_ids (g.random s).2).2).1.isSome ↔
       (g.random (drawFn g node_ids (g.random s).2).2).1 < 1/2)) ∧
    (∀ src tgt mode cons s3,
       mkShortestPath g node_ids s = .ok (.shortest_path src tgt mode cons, s3) →
       ∃ s0, cons = (mkConstraints g node_ids s0).1) := by
  constructor
  · refine ⟨?_, ?_, ?_, ?_⟩
    · rw [← mk35_eq, mkConstraints_eq]
      split_ifs with h1 h2
      · simp [h1, h2]
      · simp [h1, h2]
      · simp [h1]
    · intro c hc
      rw [mkConstraints_eq] at hc
      split_ifs at hc with h1 h2
      · simp only [Option.some.injEq] at hc
        subst hc
        exact ⟨rfl, h2⟩
    · rw [← mk12_eq]
      exact drawFn_isSome g node_ids _
    · rw [← mk12_eq]
      exact drawFrt_isSome g _
  · intro src tgt mode cons s3 h
    unfold mkShortestPath at h
    rcases h1 : rchoice g node_ids s with e | ⟨src1, t1⟩
    · rw [h1] at h; exact absurd h (by simp)
    · rw [h1] at h
      dsimp only at h
      rcases h2 : rchoice g node_ids t1 with e | ⟨tgt1, t2⟩
      · rw [h2] at h; exact absurd h (by simp)
      · rw [h2] at h
        dsimp only at h
        rcases h3 : rchoice g ["distance", "time"] t2 with e | ⟨mode1, t3⟩
        · rw [h3] at h; exact absurd h (by simp)
        · rw [h3] at h
          dsimp only at h
          simp only [Except.ok.injEq, Prod.mk.injEq, EventData.shortest_path.injEq] at h
          exact ⟨t3, h.1.2.2.2.symm⟩

/-- C5 witness: with `constGen 0 0 0` on ten node ids both sub-attempts
succeed, the constraints object is present and non-empty. -/
theorem claim_C5_witness :
    (mkConstraints (constGen 0 0 0) (List.range 10) ()).1
        = some ⟨some [0], some ["primary"]⟩ ∧
    ((some [0] : Option (List Nat)).isSome ∨
     (some ["primary"] : Option (List String)).isSome) :=
  ⟨by decide,
   ((claim_C5 (constGen 0 0 0) () (List.range 10)).1.2.1
      ⟨some [0], some ["primary"]⟩ (by decide)).2⟩

lemma rchoice_ok_state {σ α : Type} {g : RandGen σ} {l : List α} {s : σ} {x : α}
    {s2 : σ} (h : rchoice g l s = .ok (x, s2)) : s2 = (g.choiceIdx l.length s).2 := by
  unfold rchoice at h
  rcases he : g.choiceIdx l.length s with ⟨i, s1⟩
  rw [he] at h
  dsimp only at h
  rcases hg2 : l.get? i with _ | y
  · rw [hg2] at h; exact absurd h (by simp)
  · rw [hg2] at h
    simp only [Except.ok.injEq, Prod.mk.injEq] at h
    rw [← h.2]

/-- Contents of a successfully generated `modify_edge` patch: exactly one of
the three fields is present, and each carries a freshly drawn value of the
documented shape. -/
lemma mkPatch_spec {σ : Type} {g : RandGen σ} (hg : LawfulGen g) (s : σ) (p : Patch)
    (s2 : σ) (h : mkPatch g s = .ok (p, s2)) :
    ((p.length.isSome ∧ p.speed_profile = none ∧ p.road_type = none) ∨
     (p.length = none ∧ p.speed_profile.isSome ∧ p.road_type = none) ∨
     (p.length = none ∧ p.speed_profile = none ∧ p.road_type.isSome)) ∧
    (∀ q, p.length = some q → ∃ v, 50 ≤ v ∧ v ≤ 500 ∧ q = round2 v) ∧
    (∀ sp, p.speed_profile = some sp → sp.length = 96 ∧
       ∀ q ∈ sp, (∃ v, 20 ≤ v ∧ v ≤ 60 ∧ q = round2 v) ∧ 20 ≤ q ∧ q ≤ 60) ∧
    (∀ rt, p.road_type = some rt → rt ∈ ROAD_TYPES) := by
  unfold mkPatch at h
  rcases hpt : rchoice g ["length", "speed_profile", "road_type"] s with e | ⟨pt, t1⟩
  · rw [hpt] at h; exact absurd h (by simp)
  · rw [hpt] at h
    dsimp only at h
    have hmem := rchoice_ok_mem hpt
    simp only [List.mem_cons, List.mem_singleton, List.not_mem_nil, or_false] at hmem
    rcases hmem with rfl | rfl | rfl
    · rw [if_pos (rfl : ("length" : String) = "length")] at h
      simp only [Except.ok.injEq, Prod.mk.injEq] at h
      obtain ⟨rfl, -⟩ := h
      refine ⟨Or.inl (by simp), ?_, by simp, by simp⟩
      intro q hq
      simp only [Option.some.injEq] at hq
      exact ⟨(g.uniform 50 500 t1).1, (hg.uniform_le 50 500 t1 (by norm_num)).1,
        (hg.uniform_le 50 500 t1 (by norm_num)).2, hq.symm⟩
    · rw [if_neg (by decide : ¬ ("speed_profile" : String) = "length"),
        if_pos (rfl : ("speed_profile" : String) = "speed_profile")] at h
      split_ifs at h <;>
      · simp only [Except.ok.injEq, Prod.mk.injEq] at h
        obtain ⟨rfl, -⟩ := h
        refine ⟨Or.inr (Or.inl (by simp)), by simp, ?_, by simp⟩
        intro sp hsp2
        simp only [Option.some.injEq] at hsp2
        subst hsp2
        exact ⟨mkSpeedProfile_length g 96 _, mkSpeedProfile_spec hg 96 _⟩
    · rw [if_neg (by decide : ¬ ("road_type" : String) = "length"),
        if_neg (by decide : ¬ ("road_type" : String) = "speed_profile"),
        if_pos (rfl : ("road_type" : String) = "road_type")] at h
      rcases hrt : rchoice g ROAD_TYPES t1 with e | ⟨rt, t2⟩
      · rw [hrt] at h; exact absurd h (by simp)
      · rw [hrt] at h
        dsimp only at h
        simp only [Except.ok.injEq, Prod.mk.injEq] at h
        obtain ⟨rfl, -⟩ := h
        refine ⟨Or.inr (Or.inr (by simp)), by simp, by simp, ?_⟩
        intro rt2 hrt2
        simp only [Option.some.injEq] at hrt2
        rw [← hrt2]
        exact rchoice_ok_mem hrt

/-- Full behaviour of the `modify_edge` branch on success. -/
lemma mkModifyEdge_spec {σ : Type} (g : RandGen σ) (hg : LawfulGen g) (edge_ids : List Nat)
    (s : σ) (eid : Nat) (patch : Option Patch) (s2 : σ)
    (h : mkModifyEdge g edge_ids s = .ok (.modify_edge eid patch, s2)) :
    (patch.isSome ↔ mkRat 1 5 ≤ (g.random (g.choiceIdx edge_ids.length s).2).1) ∧
    (∀ p, patch = some p →
      ((p.length.isSome ∧ p.speed_profile = none ∧ p.road_type = none) ∨
       (p.length = none ∧ p.speed_profile.isSome ∧ p.road_type = none) ∨
       (p.length = none ∧ p.speed_profile = none ∧ p.road_type.isSome)) ∧
      (∀ q, p.length = some q → ∃ v, 50 ≤ v ∧ v ≤ 500 ∧ q = round2 v) ∧
      (∀ sp, p.speed_profile = some sp → sp.length = 96 ∧
         ∀ q ∈ sp, (∃ v, 20 ≤ v ∧ v ≤ 60 ∧ q = round2 v) ∧ 20 ≤ q ∧ q ≤ 60) ∧
      (∀ rt, p.road_type = some rt → rt ∈ ROAD_TYPES)) := by
  unfold mkModifyEdge at h
  rcases h1 : rchoice g edge_ids s with e | ⟨eid1, t1⟩
  · rw [h1] at h; exact absurd h (by simp)
  · rw [h1] at h
    dsimp only at h
    have ht1 : t1 = (g.choiceIdx edge_ids.length s).2 := rchoice_ok_state h1
    rw [← ht1]
    split_ifs at h with hgate
    · rcases h3 : mkPatch g (g.random t1).2 with e | ⟨p0, t3⟩
      · rw [h3] at h; exact absurd h (by simp)
      · rw [h3] at h
        dsimp only at h
        simp only [Except.ok.injEq, Prod.mk.injEq, EventData.modify_edge.injEq] at h
        obtain ⟨⟨-, rfl⟩, -⟩ := h
        constructor
        · simp only [Option.isSome_some, true_iff]
          exact hgate
        · intro p hp
          simp only [Option.some.injEq] at hp
          subst hp
          exact mkPatch_spec hg _ _ _ h3
    · simp only [Except.ok.injEq, Prod.mk.injEq, EventData.modify_edge.injEq] at h
      obtain ⟨⟨-, rfl⟩, -⟩ := h
      constructor
      · simp only [Option.isSome_none, Bool.false_eq_true, false_iff]
        exact hgate
      · intro p hp
        exact absurd hp (by simp)

/-- C6: for a successfully generated `modify_edge` event, the `patch` key is
present iff the gate draw satisfied `random.random() >= 0.2` (so it is
attached with probability 0.8 and omitted entirely with probability 0.2, and
never present as an empty object); when present, the patch carries exactly
one of `length` (a uniform `[50,500]` value rounded to 2 decimals),
`speed_profile` (always a full replacement sequence of 96 values in
`[20,60]`, never a partial update), or `road_type` (a member of
`ROAD_TYPES`). -/
theorem claim_C6 {σ : Type} (g : RandGen σ) (hg : LawfulGen g) (edge_ids : List Nat)
    (s : σ) (eid : Nat) (patch : Option Patch) (s2 : σ)
    (h : mkModifyEdge g edge_ids s = .ok (.modify_edge eid patch, s2)) :
    (patch.isSome ↔ 1/5 ≤ (g.random (g.choiceIdx edge_ids.length s).2).1) ∧
    (∀ p, patch = some p →
      ((p.length.isSome ∧ p.speed_profile = none ∧ p.road_type = none) ∨
       (p.length = none ∧ p.speed_profile.isSome ∧ p.road_type = none) ∨
       (p.length = none ∧ p.speed_profile = none ∧ p.road_type.isSome)) ∧
      (∀ q, p.length = some q → ∃ v, 50 ≤ v ∧ v ≤ 500 ∧ q = round2 v) ∧
      (∀ sp, p.speed_profile = some sp → sp.length = 96 ∧
         ∀ q ∈ sp, (∃ v, 20 ≤ v ∧ v ≤ 60 ∧ q = round2 v) ∧ 20 ≤ q ∧ q ≤ 60) ∧
      (∀ rt, p.road_type = some rt → rt ∈ ROAD_TYPES)) := by
  have hs := mkModifyEdge_spec g hg edge_ids s eid patch s2 h
  refine ⟨?_, hs.2⟩
  rw [← mk15_eq]
  exact hs.1

/-- C6 witness: a concrete `modify_edge` event whose patch carries exactly a
full speed profile. -/
theorem claim_C6_witness :
    mkModifyEdge (constGen (mkRat 1 2) 0 1) [1000] ()
        = .ok (.modify_edge 1000 (some patchW), ()) ∧
    ((patchW.length.isSome ∧ patchW.speed_profile = none ∧ patchW.road_type = none) ∨
     (patchW.length = none ∧ patchW.speed_profile.isSome ∧ patchW.road_type = none) ∨
     (patchW.length = none ∧ patchW.speed_profile = none ∧ patchW.road_type.isSome)) :=
  ⟨by rfl,
   ((claim_C6 (constGen (mkRat 1 2) 0 1) (lawful_constGen (mkRat 1 2) 0 1) [1000] () 1000
       (some patchW) () (by rfl)).2 patchW rfl).1⟩

/-- C7: every speed profile the generator emits — as a graph edge attribute
or as a `modify_edge` patch value — has exactly 96 entries, each a value
drawn uniformly from `[20, 60]` and rounded to 2 decimal places (and hence
itself in `[20, 60]`). -/
theorem claim_C7 :
    (∀ (σ : Type) (g : RandGen σ), LawfulGen g → ∀ fuel n m s G s2,
       generate_graph g fuel n m s = some (.ok (G, s2)) →
       ∀ e ∈ G.edges, e.speed_profile.length = 96 ∧
         ∀ q ∈ e.speed_profile,
           (∃ v, 20 ≤ v ∧ v ≤ 60 ∧ q = round2 v) ∧ 20 ≤ q ∧ q ≤ 60) ∧
    (∀ (σ : Type) (g : RandGen σ), LawfulGen g → ∀ edge_ids s eid p s2,
       mkModifyEdge g edge_ids s = .ok (.modify_edge eid (some p), s2) →
       ∀ sp, p.speed_profile = some sp → sp.length = 96 ∧
         ∀ q ∈ sp, (∃ v, 20 ≤ v ∧ v ≤ 60 ∧ q = round2 v) ∧ 20 ≤ q ∧ q ≤ 60) := by
  constructor
  · intro σ g hg fuel n m s G s2 h
    obtain ⟨-, hE⟩ := generate_graph_ok g fuel n m s G s2 h
    have hres := edgeLoop_ok_inv g
      (fun e => e.speed_profile.length = 96 ∧
        ∀ q ∈ e.speed_profile,
          (∃ v, 20 ≤ v ∧ v ≤ 60 ∧ q = round2 v) ∧ 20 ≤ q ∧ q ≤ 60)
      (fun eid u v s0 => mkEdgeAttrs_profile hg eid u v s0) n m fuel
      [] [] _ G.edges s2 hE rfl (by simp) (by simp) (by simp) (by simp) (by simp)
    exact hres.2.2.2.2
  · intro σ g hg edge_ids s eid p s2 h
    exact ((mkModifyEdge_spec g hg edge_ids s eid (some p) s2 h).2 p rfl).2.2.1

/-- C7 witness: the concrete graph `graphW` (one edge, 96-entry profile) and
the concrete patch `patchW` (a 96-entry speed profile). -/
theorem claim_C7_witness :
    (∀ e ∈ graphW.edges, e.speed_profile.length = 96 ∧
       ∀ q ∈ e.speed_profile,
         (∃ v, 20 ≤ v ∧ v ≤ 60 ∧ q = round2 v) ∧ 20 ≤ q ∧ q ≤ 60) ∧
    (∀ sp, patchW.speed_profile = some sp → sp.length = 96 ∧
       ∀ q ∈ sp, (∃ v, 20 ≤ v ∧ v ≤ 60 ∧ q = round2 v) ∧ 20 ≤ q ∧ q ≤ 60) :=
  ⟨claim_C7.1 Unit (constGen 0 0 0) (lawful_constGen 0 0 0) 1 2 1 () graphW () (by rfl),
   claim_C7.2 Unit (constGen (mkRat 1 2) 0 1) (lawful_constGen (mkRat 1 2) 0 1)
     [1000] () 1000 patchW () (by rfl)⟩

lemma uniform_jitter_abs {σ : Type} {g : RandGen σ} (hg : LawfulGen g) (s : σ) :
    |(g.uniform (mkRat (-1) 200) (mkRat 1 200) s).1| ≤ 1/200 := by
  have hb := hg.uniform_le (mkRat (-1) 200) (mkRat 1 200) s
    (by rw [mkm1200_eq, mk1200_eq]; norm_num)
  refine abs_le.mpr ⟨?_, ?_⟩
  · calc -(1/200 : ℚ) = mkRat (-1) 200 := mkm1200_eq.symm
      _ ≤ _ := hb.1
  · calc (g.uniform (mkRat (-1) 200) (mkRat 1 200) s).1 ≤ mkRat 1 200 := hb.2
      _ = 1/200 := mk1200_eq

/-- Rounding a jittered coordinate to six decimals stays within the jitter
radius plus half an ulp of the rounding grid. -/
lemma jitter_bound {x d : ℚ} (hd : |d| ≤ 1/200) :
    |round6 (x + d) - x| ≤ 1/200 + 1/2000000 := by
  have h1 := abs_round6_sub (x + d)
  have h2 : round6 (x + d) - x = (round6 (x + d) - (x + d)) + d := by ring
  rw [h2]
  calc |(round6 (x + d) - (x + d)) + d|
      ≤ |round6 (x + d) - (x + d)| + |d| := abs_add _ _
    _ ≤ 1/2000000 + 1/200 := add_le_add h1 hd
    _ = 1/200 + 1/2000000 := by ring

/-- C8: for every generated `knn` event, the `poi` field is drawn from the
multiset of POI strings present across the graph nodes when that multiset is
non-empty, and from the fixed vocabulary `POIS` otherwise; in particular,
whenever every node's POIs come from the vocabulary (as they do for
generated graphs), the field is always a member of the vocabulary. -/
theorem claim_C8 {σ : Type} (g : RandGen σ) (all_nodes : List Node) (s : σ)
    (k : Nat) (poi : String) (qp : QueryPoint) (metric : String) (s2 : σ)
    (h : mkKnn g all_nodes s = .ok (.knn k poi qp metric, s2)) :
    (all_nodes.flatMap Node.pois ≠ [] → poi ∈ all_nodes.flatMap Node.pois) ∧
    (all_nodes.flatMap Node.pois = [] → poi ∈ POIS) ∧
    ((∀ nd ∈ all_nodes, ∀ p2 ∈ nd.pois, p2 ∈ POIS) → poi ∈ POIS) := by
  unfold mkKnn at h
  rcases hk : g.randint 3 10 s with ⟨kk, t1⟩
  rw [hk] at h
  dsimp only at h
  by_cases hemp : (all_nodes.flatMap Node.pois).isEmpty = true
  · rw [if_pos hemp] at h
    rcases hp : rchoice g POIS t1 with e | ⟨poi1, t2⟩
    · rw [hp] at h; exact absurd h (by simp)
    · rw [hp] at h
      dsimp only at h
      rcases hr : rchoice g all_nodes t2 with e | ⟨ref, t3⟩
      · rw [hr] at h; exact absurd h (by simp)
      · rw [hr] at h
        dsimp only at h
        simp only [Except.ok.injEq, Prod.mk.injEq, EventData.knn.injEq] at h
        obtain ⟨⟨-, hpoi, -, -⟩, -⟩ := h
        subst hpoi
        have hmem := rchoice_ok_mem hp
        have hempty : all_nodes.flatMap Node.pois = [] := by
          simpa using hemp
        exact ⟨fun hne => absurd hempty hne, fun _ => hmem, fun _ => hmem⟩
  · rw [if_neg hemp] at h
    rcases hp : rchoice g (all_nodes.flatMap Node.pois) t1 with e | ⟨poi1, t2⟩
    · rw [hp] at h; exact absurd h (by simp)
    · rw [hp] at h
      dsimp only at h
      rcases hr : rchoice g all_nodes t2 with e | ⟨ref, t3⟩
      · rw [hr] at h; exact absurd h (by simp)
      · rw [hr] at h
        dsimp only at h
        simp only [Except.ok.injEq, Prod.mk.injEq, EventData.knn.injEq] at h
        obtain ⟨⟨-, hpoi, -, -⟩, -⟩ := h
        subst hpoi
        have hmem := rchoice_ok_mem hp
        have hne : all_nodes.flatMap Node.pois ≠ [] := by
          intro he
          rw [he] at hemp
          exact hemp rfl
        refine ⟨fun _ => hmem, fun he => absurd he hne, fun hall => ?_⟩
        obtain ⟨nd, hnd, hpnd⟩ := List.mem_flatMap.mp hmem
        exact hall nd hnd _ hpnd

/-- C9 (amended): for every generated `knn` event there is a node whose
coordinates are within `0.005 + 0.0000005` of the query point on each axis —
the jitter radius `0.005` plus half an ulp of the 6-decimal rounding; the
original bound `0.005` alone is refuted by `claim_C9_counterexample`. -/
theorem claim_C9_amended {σ : Type} (g : RandGen σ) (hg : LawfulGen g)
    (all_nodes : List Node) (s : σ) (k : Nat) (poi : String) (qp : QueryPoint)
    (metric : String) (s2 : σ)
    (h : mkKnn g all_nodes s = .ok (.knn k poi qp metric, s2)) :
    ∃ nd ∈ all_nodes, |qp.lat - nd.lat| ≤ 1/200 + 1/2000000 ∧
      |qp.lon - nd.lon| ≤ 1/200 + 1/2000000 := by
  unfold mkKnn at h
  rcases hk : g.randint 3 10 s with ⟨kk, t1⟩
  rw [hk] at h
  dsimp only at h
  by_cases hemp : (all_nodes.flatMap Node.pois).isEmpty = true
  · rw [if_pos hemp] at h
    rcases hp : rchoice g POIS t1 with e | ⟨poi1, t2⟩
    · rw [hp] at h; exact absurd h (by simp)
    · rw [hp] at h
      dsimp only at h
      rcases hr : rchoice g all_nodes t2 with e | ⟨ref, t3⟩
      · rw [hr] at h; exact absurd h (by simp)
      · rw [hr] at h
        dsimp only at h
        simp only [Except.ok.injEq, Prod.mk.injEq, EventData.knn.injEq] at h
        obtain ⟨⟨-, -, hqp, -⟩, -⟩ := h
        refine ⟨ref, rchoice_ok_mem hr, ?_, ?_⟩
        · rw [← hqp]
          exact jitter_bound (uniform_jitter_abs hg t3)
        · rw [← hqp]
          exact jitter_bound (uniform_jitter_abs hg _)
  · rw [if_neg hemp] at h
    rcases hp : rchoice g (all_nodes.flatMap Node.pois) t1 with e | ⟨poi1, t2⟩
    · rw [hp] at h; exact absurd h (by simp)
    · rw [hp] at h
      dsimp only at h
      rcases hr : rchoice g all_nodes t2 with e | ⟨ref, t3⟩
      · rw [hr] at h; exact absurd h (by simp)
      · rw [hr] at h
        dsimp only at h
        simp only [Except.ok.injEq, Prod.mk.injEq, EventData.knn.injEq] at h
        obtain ⟨⟨-, -, hqp, -⟩, -⟩ := h
        refine ⟨ref, rchoice_ok_mem hr, ?_, ?_⟩
        · rw [← hqp]
          exact jitter_bound (uniform_jitter_abs hg t3)
        · rw [← hqp]
          exact jitter_bound (uniform_jitter_abs hg _)

section RatKernelEval

attribute [local semireducible] Rat.add Rat.mul Rat.sub

/-- C8 witness: on a node carrying the POI `"hospital"`, the generated `knn`
event's poi is drawn from the node POIs. -/
theorem claim_C8_witness :
    mkKnn (constGen 0 0 0) nodesP ()
        = .ok (.knn 3 "hospital" ⟨mkRat 3799 200, mkRat 14559 200⟩ "shortest_path", ()) ∧
    "hospital" ∈ nodesP.flatMap Node.pois :=
  ⟨by rfl,
   (claim_C8 (constGen 0 0 0) nodesP () 3 "hospital"
      ⟨mkRat 3799 200, mkRat 14559 200⟩ "shortest_path" () (by rfl)).1 (by decide)⟩

/-- C9 counterexample: a lawful source generates a one-node graph whose node
sits at `lat = 19.0000004`; the `knn` event drawn on it jitters by exactly
`-0.005` and rounds to 6 decimals, landing `0.0050004 > 0.005` away from
every node of the graph — so the claimed bound `0.005` fails as stated. -/
theorem claim_C9_counterexample :
    generate_graph (constGen (mkRat 1 500000) 0 0) 1 1 0 () = some (.ok (graph9, ())) ∧
    generate_queries (constGen 0 1 0) graph9 1 () = .ok (events9, ()) ∧
    LawfulGen (constGen (mkRat 1 500000) 0 0) ∧
    LawfulGen (constGen 0 1 0) ∧
    events9 = [⟨1, .knn 3 "restaurant" ⟨mkRat 3799 200, mkRat 14559 200⟩ "shortest_path"⟩] ∧
    ∀ nd ∈ graph9.nodes,
      ¬(|(mkRat 3799 200 : ℚ) - nd.lat| ≤ 1/200 ∧
        |(mkRat 14559 200 : ℚ) - nd.lon| ≤ 1/200) := by
  refine ⟨by rfl, by rfl, lawful_constGen _ _ _, lawful_constGen _ _ _, by decide, ?_⟩
  have h9 : graph9.nodes = [⟨0, mkRat 47500001 2500000, mkRat 182000001 2500000, []⟩] := by
    decide
  rw [h9]
  intro nd hnd
  simp only [List.mem_singleton] at hnd
  subst hnd
  intro hcon
  obtain ⟨h1, -⟩ := hcon
  dsimp only at h1
  have e1 : (mkRat 3799 200 : ℚ) - mkRat 47500001 2500000 = -(12501/2500000) := by
    rw [mkRat_eq_div', mkRat_eq_div']
    norm_num
  rw [e1, abs_neg, abs_of_pos (by norm_num : (0:ℚ) < 12501/2500000)] at h1
  norm_num at h1

/-- C9 amended witness: the same concrete `knn` event satisfies the corrected
bound `0.005 + 0.0000005`. -/
theorem claim_C9_amended_witness :
    ∃ nd ∈ graph9.nodes,
      |(⟨mkRat 3799 200, mkRat 14559 200⟩ : QueryPoint).lat - nd.lat| ≤ 1/200 + 1/2000000 ∧
      |(⟨mkRat 3799 200, mkRat 14559 200⟩ : QueryPoint).lon - nd.lon| ≤ 1/200 + 1/2000000 :=
  claim_C9_amended (constGen 0 1 0) (lawful_constGen 0 1 0) graph9.nodes () 3 "restaurant"
    ⟨mkRat 3799 200, mkRat 14559 200⟩ "shortest_path" () (by rfl)

end RatKernelEval

end RoadGen
